import Mathlib

/-!
# gocond: conditional goroutines

A verification development for `gocond.go`.  The package has two functions:

    func Run(f func() error) <-chan error
    func RunCtx(ctx context.Context, f func(context.Context) error) <-chan error

`RunCtx` allocates an unbuffered channel, spawns one goroutine whose whole body
is a two-case `select` (receive from `ctx.Done()` / send `f(ctx)` on the
channel) and returns the channel.  `Run` delegates to `RunCtx` with
`context.Background()`.

One invocation is embedded as a labelled transition system: a state records the
program counter of the calling thread, the program counter of the spawned
goroutine, the done channel of the context and the returned channel; an event is
one atomic step of the caller, of the goroutine, or of the environment (a
cancellation, a reader starting or giving up a receive).  The step function is
executable, so every trace can be evaluated.

Go semantics used (language specification, "Select statements" and
"Channel types"; package `context`):
* on entering a `select`, the channel operands and the right-hand sides of the
  send cases are evaluated exactly once, in source order; so `f(ctx)` is called
  and has returned before any case is chosen;
* a case is chosen among those that can proceed; when several can, the choice is
  arbitrary; when none can, the goroutine blocks;
* a send on an unbuffered channel can proceed only when a receiver is waiting;
* a receive from a `nil` channel never proceeds; a receive from a closed channel
  always proceeds;
* `context.Background().Done()` is `nil`; the done channel of a cancellable
  context is closed when the context is cancelled, and stays closed.
-/

namespace Gocond

/-- Go `error` value: `none` is `nil`, `some e` is a non-nil error `e`. -/
abbrev GoError (ε : Type) := Option ε

/-- The `context.Context` handles `RunCtx` can be given, as far as it uses them:
the background context, or a context that can be cancelled (with a cancel
function, a deadline or a cancellable ancestor), identified by `id`. -/
inductive Context where
  | background
  | cancellable (id : Nat)
deriving DecidableEq, Repr

/-- The method `ctx.Done()`: the `nil` channel (`none`) for the background context,
the context's done channel otherwise. -/
def Context.Done : Context → Option Nat
  | .background => none
  | .cancellable id => some id

/-- The type `Conditional`, `func() error`.  The result `none` stands for a call
that never returns. -/
abbrev Conditional (ε : Type) := Unit → Option (GoError ε)

/-- The type `ConditionalCtx`, `func(context.Context) error`.  The function
receives the context handle and what it can observe through it (whether the
context is cancelled when the function looks); `none` stands for a call that
never returns. -/
abbrev ConditionalCtx (ε : Type) := Context → Bool → Option (GoError ε)

/-- Program counter of the thread that calls `RunCtx` (lines 75, 76, 84). -/
inductive CallerPc where
  | atMake
  | atGo
  | atReturn
  | returned
deriving DecidableEq, Repr

/-- Program counter of the goroutine spawned at line 76.
`created`: spawned, the `select` not yet entered.
`running`: the `select` is entered and `f(ctx)` is being evaluated.
`racing v`: `f(ctx)` returned `v`; the `select` has not chosen a case yet.
`delivered v`: the send case was chosen (line 81).
`abandoned`: the done case was chosen (line 79). -/
inductive TaskPc (ε : Type) where
  | unspawned
  | created
  | running
  | racing (v : GoError ε)
  | delivered (v : GoError ε)
  | abandoned
deriving DecidableEq, Repr

/-- The terminal states of the goroutine: it has returned. -/
def TaskPc.terminal {ε : Type} : TaskPc ε → Bool
  | .delivered _ => true
  | .abandoned => true
  | _ => false

/-- State of one invocation. -/
structure State (ε : Type) where
  /-- where the calling thread is -/
  caller : CallerPc
  /-- where the spawned goroutine is -/
  task : TaskPc ε
  /-- the done channel of `ctx` is closed (the context is cancelled) -/
  doneClosed : Bool
  /-- the returned channel `ret` is closed -/
  closed : Bool
  /-- number of receivers currently blocked on `ret` -/
  waiting : Nat
  /-- the values receivers have obtained from `ret`, oldest first -/
  received : List (GoError ε)
  /-- the arguments of the calls of `f` made so far, oldest first -/
  calls : List Context
deriving DecidableEq, Repr

/-- One atomic step of an invocation. -/
inductive Event where
  /-- line 75, `ret := make(chan error)` -/
  | callerMake
  /-- line 76, the `go` statement -/
  | callerGo
  /-- line 84, `return ret` -/
  | callerReturn
  /-- lines 77-80, the goroutine enters the `select`, evaluates `ctx.Done()` and calls `f(ctx)` -/
  | taskCall
  /-- line 80, `f(ctx)` returns -/
  | taskReturn
  /-- lines 78-79, the `select` chooses `case <-ctx.Done()` -/
  | selectDone
  /-- lines 80-81, the `select` chooses `case ret <- f(ctx)`; a waiting receiver gets the value -/
  | selectSend
  /-- environment: the context is cancelled -/
  | cancel
  /-- environment: a receiver starts a receive on the returned channel -/
  | readerArrive
  /-- environment: a blocked receiver gives up (its own timeout or cancellation) -/
  | readerLeave
  /-- a blocked receiver completes on a closed channel with the zero value -/
  | recvClosed
deriving DecidableEq, Repr

/-- The threads of control. -/
inductive Thread where
  | caller
  | task
  | environment
deriving DecidableEq, Repr

/-- The thread that performs an event. -/
def Event.thread : Event → Thread
  | .callerMake => .caller
  | .callerGo => .caller
  | .callerReturn => .caller
  | .taskCall => .task
  | .taskReturn => .task
  | .selectDone => .task
  | .selectSend => .task
  | .cancel => .environment
  | .readerArrive => .environment
  | .readerLeave => .environment
  | .recvClosed => .environment

/-- An invocation as a transition system: the state at the call, given whether the
context was already cancelled then, and the executable step function. -/
structure System (ε : Type) where
  start : Bool → State ε
  step : Event → State ε → Option (State ε)

/-- The function `RunCtx` (gocond.go lines 74-85). -/
def RunCtx {ε : Type} (ctx : Context) (f : ConditionalCtx ε) : System ε where
  -- at the call nothing has run yet; only a context with a done channel can
  -- already be cancelled
  start := fun pre =>
    { caller := .atMake, task := .unspawned, doneClosed := pre && ctx.Done.isSome,
      closed := false, waiting := 0, received := [], calls := [] }
  step := fun e s =>
    match e with
    | .callerMake =>
      -- ret := make(chan error): a fresh, open, unbuffered channel
      match s.caller with
      | .atMake => some { s with caller := .atGo, closed := false, waiting := 0, received := [] }
      | _ => none
    | .callerGo =>
      -- go func() { ... }()
      match s.caller with
      | .atGo => some { s with caller := .atReturn, task := .created }
      | _ => none
    | .callerReturn =>
      -- return ret
      match s.caller with
      | .atReturn => some { s with caller := .returned }
      | _ => none
    | .taskCall =>
      -- select entry: the operands are evaluated, f(ctx) is called
      match s.task with
      | .created => some { s with task := .running, calls := s.calls ++ [ctx] }
      | _ => none
    | .taskReturn =>
      -- f(ctx) returns the value to send; a call that never returns leaves the
      -- goroutine in the state running
      match s.task with
      | .running => (f ctx s.doneClosed).map (fun v => { s with task := .racing v })
      | _ => none
    | .selectDone =>
      -- case <-ctx.Done(): return
      -- (ready when ctx.Done() is a non-nil channel that has been closed)
      match s.task, ctx.Done, s.doneClosed with
      | .racing _, some _, true => some { s with task := .abandoned }
      | _, _, _ => none
    | .selectSend =>
      -- case ret <- f(ctx): return
      -- (ready when a receiver is blocked on ret; a send on a closed channel would
      -- panic instead of delivering, so it hands over no value)
      match s.task, s.waiting, s.closed with
      | .racing v, n + 1, false =>
        some { s with task := .delivered v, waiting := n, received := s.received ++ [v] }
      | _, _, _ => none
    | .cancel =>
      match ctx.Done with
      | some _ => some { s with doneClosed := true }
      | none => none
    | .readerArrive =>
      -- only the caller holds the channel, and only once RunCtx has returned it
      match s.caller with
      | .returned => some { s with waiting := s.waiting + 1 }
      | _ => none
    | .readerLeave =>
      match s.waiting with
      | n + 1 => some { s with waiting := n }
      | 0 => none
    | .recvClosed =>
      match s.closed, s.waiting with
      | true, n + 1 => some { s with waiting := n, received := s.received ++ [none] }
      | _, _ => none

/-- The function `Run` (gocond.go lines 66-71). -/
def Run {ε : Type} (f : Conditional ε) : System ε :=
  let ctx := Context.background
  RunCtx ctx (fun _ _ => f ())

/-- Run a list of events from a state; `none` when some event is not enabled. -/
def exec {ε : Type} (sys : System ε) : List Event → State ε → Option (State ε)
  | [], s => some s
  | e :: es, s =>
    match sys.step e s with
    | some s1 => exec sys es s1
    | none => none

/-- State `t` is reachable from state `s`. -/
def ReachableFrom {ε : Type} (sys : System ε) (s t : State ε) : Prop :=
  ∃ es : List Event, exec sys es s = some t

/-- State `s` is reachable in an invocation whose context was (`pre = true`) or was
not already cancelled at the call. -/
def Reachable {ε : Type} (sys : System ε) (pre : Bool) (s : State ε) : Prop :=
  ReachableFrom sys (sys.start pre) s

/-- The invariant of an invocation of `RunCtx ctx f`: the returned channel is open,
only a cancellable context is ever cancelled, nobody receives before the call has
returned, and the goroutine's program counter determines the calls of `f` made
and the values received. -/
def Inv (ctx : Context) (f : ConditionalCtx ε) (s : State ε) : Prop :=
  s.closed = false ∧
  (s.doneClosed = true → ctx.Done.isSome = true) ∧
  (s.caller ≠ .returned → s.waiting = 0) ∧
  match s.task with
  | .unspawned =>
    (s.caller = .atMake ∨ s.caller = .atGo) ∧ s.calls = [] ∧ s.received = []
  | .created =>
    (s.caller = .atReturn ∨ s.caller = .returned) ∧ s.calls = [] ∧ s.received = []
  | .running =>
    (s.caller = .atReturn ∨ s.caller = .returned) ∧ s.calls = [ctx] ∧ s.received = []
  | .racing v =>
    (s.caller = .atReturn ∨ s.caller = .returned) ∧ s.calls = [ctx] ∧ s.received = [] ∧
      ∃ b : Bool, (b = true → s.doneClosed = true) ∧ f ctx b = some v
  | .delivered v =>
    s.caller = .returned ∧ s.calls = [ctx] ∧ s.received = [v] ∧
      ∃ b : Bool, (b = true → s.doneClosed = true) ∧ f ctx b = some v
  | .abandoned =>
    (s.caller = .atReturn ∨ s.caller = .returned) ∧ s.calls = [ctx] ∧ s.received = [] ∧
      s.doneClosed = true

/-! ## Sample inputs -/

/-- The function `myMaybeGoroutine` of example_test.go (lines 9-18): an error when
`a < 1`, otherwise `nil` after spawning a detached goroutine, which the package
does not track. -/
def myMaybeGoroutine (a : Int) : GoError String :=
  if a < 1 then some "a cannot be less than 1" else none

/-- Scenario A: the unit of work of `ExampleRun` (example_test.go lines 40-42) with
`a = 0`; it returns the error of `myMaybeGoroutine`. -/
def scenarioA : Conditional String :=
  fun _ => some (myMaybeGoroutine 0)

/-- A unit of work that returns `ctx.Err()`: `nil` while the context is live, an
error once it is cancelled. -/
def returnCtxErr : ConditionalCtx String :=
  fun _ cancelled => some (if cancelled then some "context canceled" else none)

/-- A unit of work that never returns. -/
def neverReturns : ConditionalCtx String :=
  fun _ _ => none

/-- The caller runs `RunCtx` to its return and starts receiving; then the goroutine
calls `f`, `f` returns, and the `select` chooses the send. -/
def happyTrace : List Event :=
  [.callerMake, .callerGo, .callerReturn, .readerArrive, .taskCall, .taskReturn, .selectSend]

/-- The state `happyTrace` of `Run scenarioA` ends in. -/
def scenarioA_final : State String :=
  { caller := .returned, task := .delivered (some "a cannot be less than 1"),
    doneClosed := false, closed := false, waiting := 0,
    received := [some "a cannot be less than 1"], calls := [Context.background] }

/-- The state `happyTrace` of `RunCtx (Context.cancellable 0) returnCtxErr` ends in
when the context is not cancelled. -/
def liveDelivered : State String :=
  { caller := .returned, task := .delivered none, doneClosed := false, closed := false,
    waiting := 0, received := [none], calls := [Context.cancellable 0] }

/-- A state of `RunCtx (Context.cancellable 0) returnCtxErr` with a context cancelled
before the call: the goroutine has called `f` and taken the done case before the
caller has even returned. -/
def preCancelledAbandoned : State String :=
  { caller := .atReturn, task := .abandoned, doneClosed := true, closed := false,
    waiting := 0, received := [], calls := [Context.cancellable 0] }

/-- A context cancelled before the call, a reader already waiting when the goroutine
reaches its `select`, and the `select` choosing the send. -/
def preCancelledDelivery : List Event :=
  [.callerMake, .callerGo, .callerReturn, .readerArrive, .taskCall, .taskReturn, .selectSend]

/-- The unit of work returns, then the context is cancelled while no reader is
waiting, then a reader arrives, and the `select` chooses the send. -/
def lateCancelDelivery : List Event :=
  [.callerMake, .callerGo, .callerReturn, .taskCall, .taskReturn, .cancel, .readerArrive,
    .selectSend]

/-- A state of `RunCtx (Context.cancellable 0) returnCtxErr` with a context cancelled
before the call: `f` has returned and no reader is waiting. -/
def preCancelledRacing : State String :=
  { caller := .returned, task := .racing (some "context canceled"), doneClosed := true,
    closed := false, waiting := 0, received := [], calls := [Context.cancellable 0] }

/-- A state of `RunCtx (Context.cancellable 0) returnCtxErr`: `f` returned `nil`
while the context was live, then the context was cancelled, no reader waiting. -/
def lateCancelRacing : State String :=
  { caller := .returned, task := .racing none, doneClosed := true,
    closed := false, waiting := 0, received := [], calls := [Context.cancellable 0] }

/-- A state of `RunCtx (Context.cancellable 0) neverReturns`: the goroutine is inside
the call of `f`, which never returns, and the caller has not returned yet. -/
def stuckInF : State String :=
  { caller := .atReturn, task := .running, doneClosed := false, closed := false,
    waiting := 0, received := [], calls := [Context.cancellable 0] }

/-- The three steps of the calling thread, lines 75, 76 and 84. -/
def callerSteps : List Event :=
  [.callerMake, .callerGo, .callerReturn]

/-- The token of the spec's Launch: "a cancellation token that never fires (a
background/unbounded token)". -/
def neverFiringToken : Context :=
  Context.background

/-- The wrapper of the spec's Launch: "wraps the unit-of-work into the
context-accepting form (ignoring the token)". -/
def ignoringToken {ε : Type} (f : Conditional ε) : ConditionalCtx ε :=
  fun _ _ => f ()

/-- Launch as the spec words it: it "delegates to Launch-with-cancellation using a
cancellation token that never fires", with the wrapped unit of work. -/
def LaunchSpec {ε : Type} (f : Conditional ε) : System ε :=
  RunCtx neverFiringToken (ignoringToken f)

/-- A state of `RunCtx (Context.cancellable 0) returnCtxErr` with a context cancelled
before the call: `f` has returned and a reader is waiting. -/
def preCancelledWaiting : State String :=
  { caller := .returned, task := .racing (some "context canceled"), doneClosed := true,
    closed := false, waiting := 1, received := [], calls := [Context.cancellable 0] }

/-- A state of `RunCtx (Context.cancellable 0) f` for every `f`, context live: the
channel is made, the caller is at the `go` statement. -/
def liveAtGo : State String :=
  { caller := .atGo, task := .unspawned, doneClosed := false, closed := false,
    waiting := 0, received := [], calls := [] }

/-- A state of `RunCtx (Context.cancellable 0) returnCtxErr`, context live: the
goroutine is spawned and has not entered the `select`. -/
def liveCreated : State String :=
  { caller := .atReturn, task := .created, doneClosed := false, closed := false,
    waiting := 0, received := [], calls := [] }

/-- A state of `RunCtx (Context.cancellable 0) returnCtxErr`, context cancelled
before the call: the goroutine is spawned and has not entered the `select`. -/
def preCancelledCreated : State String :=
  { caller := .atReturn, task := .created, doneClosed := true, closed := false,
    waiting := 0, received := [], calls := [] }

/-- A state of `RunCtx (Context.cancellable 0) returnCtxErr`, context cancelled
before the call: the goroutine is inside the call of `f`. -/
def preCancelledRunning : State String :=
  { caller := .atReturn, task := .running, doneClosed := true, closed := false,
    waiting := 0, received := [], calls := [Context.cancellable 0] }

/-- A state of `RunCtx (Context.cancellable 0) returnCtxErr`, context live: the call
has returned the channel and the goroutine is inside the call of `f`. -/
def liveRunning : State String :=
  { caller := .returned, task := .running, doneClosed := false, closed := false,
    waiting := 0, received := [], calls := [Context.cancellable 0] }

/-- A state of `RunCtx (Context.cancellable 0) returnCtxErr`, context live: `f` has
returned `nil` and no reader is waiting. -/
def liveRacingAlone : State String :=
  { caller := .returned, task := .racing none, doneClosed := false, closed := false,
    waiting := 0, received := [], calls := [Context.cancellable 0] }

/-- A state of `RunCtx (Context.cancellable 0) returnCtxErr`, context live: `f` has
returned `nil` and a reader is waiting. -/
def liveRacingReader : State String :=
  { caller := .returned, task := .racing none, doneClosed := false, closed := false,
    waiting := 1, received := [], calls := [Context.cancellable 0] }

/-! ## Shared lemmas -/

variable {ε : Type}

theorem inv_start (ctx : Context) (f : ConditionalCtx ε) (pre : Bool) :
    Inv ctx f ((RunCtx ctx f).start pre) := by
  simp [Inv, RunCtx]

theorem inv_step (ctx : Context) (f : ConditionalCtx ε) (e : Event) (s t : State ε)
    (hs : Inv ctx f s) (h : (RunCtx ctx f).step e s = some t) : Inv ctx f t := by
  cases e <;> simp only [RunCtx] at h <;> split at h <;> try (simp at h)
  case taskReturn.h_1 =>
    obtain ⟨a, ha, rfl⟩ := h
    simp only [Inv] at hs ⊢
    cases hst : s.task <;> simp_all
    cases hd : s.doneClosed <;> simp_all
  all_goals subst h
  all_goals simp only [Inv] at hs ⊢
  all_goals cases hst : s.task <;> simp_all
  all_goals aesop

/-- At most one value has been received. -/
theorem inv_received_le (ctx : Context) (f : ConditionalCtx ε) (s : State ε)
    (hs : Inv ctx f s) : s.received.length ≤ 1 := by
  simp only [Inv] at hs
  cases hst : s.task <;> simp_all

/-- In a state `racing v` the one call of `f` has returned `v` and nothing has been
received. -/
theorem inv_racing (ctx : Context) (f : ConditionalCtx ε) (s : State ε) (v : GoError ε)
    (hs : Inv ctx f s) (hst : s.task = .racing v) :
    s.calls = [ctx] ∧ s.received = [] ∧
      ∃ b : Bool, (b = true → s.doneClosed = true) ∧ f ctx b = some v := by
  simp only [Inv, hst] at hs
  exact hs.2.2.2.2

/-- In a state `delivered v` exactly `v`, the value `f` returned, has been received. -/
theorem inv_delivered (ctx : Context) (f : ConditionalCtx ε) (s : State ε) (v : GoError ε)
    (hs : Inv ctx f s) (hst : s.task = .delivered v) :
    s.calls = [ctx] ∧ s.received = [v] ∧
      ∃ b : Bool, (b = true → s.doneClosed = true) ∧ f ctx b = some v := by
  simp only [Inv, hst] at hs
  exact hs.2.2.2.2

/-- In the state `abandoned` nothing has been received and the context is cancelled. -/
theorem inv_abandoned (ctx : Context) (f : ConditionalCtx ε) (s : State ε)
    (hs : Inv ctx f s) (hst : s.task = .abandoned) :
    s.calls = [ctx] ∧ s.received = [] ∧ s.doneClosed = true ∧ ctx.Done.isSome = true := by
  simp only [Inv, hst] at hs
  exact ⟨hs.2.2.2.2.1, hs.2.2.2.2.2.1, hs.2.2.2.2.2.2, hs.2.1 hs.2.2.2.2.2.2⟩

/-- The returned channel is open. -/
theorem inv_open (ctx : Context) (f : ConditionalCtx ε) (s : State ε)
    (hs : Inv ctx f s) : s.closed = false :=
  hs.1

theorem exec_append (sys : System ε) (es1 es2 : List Event) (s : State ε) :
    exec sys (es1 ++ es2) s = (exec sys es1 s).bind (exec sys es2) := by
  induction es1 generalizing s with
  | nil => simp [exec]
  | cons e es ih =>
    simp only [List.cons_append, exec]
    cases sys.step e s with
    | none => simp
    | some s1 => simpa using ih s1

theorem reachableFrom_refl (sys : System ε) (s : State ε) : ReachableFrom sys s s :=
  ⟨[], rfl⟩

theorem reachableFrom_trans (sys : System ε) (s t u : State ε)
    (h1 : ReachableFrom sys s t) (h2 : ReachableFrom sys t u) : ReachableFrom sys s u := by
  obtain ⟨es1, h1⟩ := h1
  obtain ⟨es2, h2⟩ := h2
  exact ⟨es1 ++ es2, by simp [exec_append, h1, h2]⟩

/-- Induction along a trace: a property of the first state that every step preserves
holds of the last state. -/
theorem exec_induction (sys : System ε) (P : State ε → Prop)
    (hstep : ∀ e s t, P s → sys.step e s = some t → P t)
    (es : List Event) (s t : State ε) (hs : P s) (h : exec sys es s = some t) : P t := by
  induction es generalizing s with
  | nil =>
    simp only [exec, Option.some.injEq] at h
    exact h ▸ hs
  | cons e es ih =>
    simp only [exec] at h
    cases hst : sys.step e s with
    | none => simp [hst] at h
    | some s1 =>
      rw [hst] at h
      exact ih s1 (hstep e s s1 hs hst) h

theorem inv_exec (ctx : Context) (f : ConditionalCtx ε) (es : List Event) (s t : State ε)
    (hs : Inv ctx f s) (h : exec (RunCtx ctx f) es s = some t) : Inv ctx f t :=
  exec_induction (RunCtx ctx f) (Inv ctx f) (fun e s t => inv_step ctx f e s t) es s t hs h

theorem inv_reachable (ctx : Context) (f : ConditionalCtx ε) (pre : Bool) (s : State ε)
    (h : Reachable (RunCtx ctx f) pre s) : Inv ctx f s := by
  obtain ⟨es, h⟩ := h
  exact inv_exec ctx f es _ s (inv_start ctx f pre) h

/-- Each step adds one received value when it is the send case of the `select`, and
none otherwise. -/
theorem step_received (ctx : Context) (f : ConditionalCtx ε) (e : Event) (s t : State ε)
    (hs : Inv ctx f s) (h : (RunCtx ctx f).step e s = some t) :
    t.received.length = s.received.length + [e].count Event.selectSend := by
  cases e <;> simp only [RunCtx] at h <;> split at h <;> try (simp at h)
  case taskReturn.h_1 =>
    obtain ⟨a, _, rfl⟩ := h
    simp
  case callerMake.h_1 =>
    subst h
    simp only [Inv] at hs
    cases hst : s.task <;> simp_all
  case recvClosed.h_1 =>
    simp only [Inv] at hs
    simp_all
  all_goals subst h
  all_goals simp

theorem exec_received (ctx : Context) (f : ConditionalCtx ε) (es : List Event) (s t : State ε)
    (hs : Inv ctx f s) (h : exec (RunCtx ctx f) es s = some t) :
    t.received.length = s.received.length + es.count Event.selectSend := by
  induction es generalizing s with
  | nil =>
    simp only [exec, Option.some.injEq] at h
    simp [h]
  | cons e es ih =>
    simp only [exec] at h
    cases hst : (RunCtx ctx f).step e s with
    | none => simp [hst] at h
    | some s1 =>
      rw [hst] at h
      have h1 := step_received ctx f e s s1 hs hst
      have h2 := ih s1 (inv_step ctx f e s s1 hs hst) h
      rw [h2, h1, List.count_cons]
      simp only [List.count_cons, List.count_nil, beq_iff_eq]
      omega

/-- No step changes the program counter of a goroutine that has returned, nor what
has been received once it has. -/
theorem step_terminal (ctx : Context) (f : ConditionalCtx ε) (e : Event) (s t : State ε)
    (hs : Inv ctx f s) (hterm : s.task.terminal = true)
    (h : (RunCtx ctx f).step e s = some t) :
    t.task = s.task ∧ t.received = s.received := by
  cases e <;> simp only [RunCtx] at h <;> split at h <;> try (simp at h)
  case taskReturn.h_1 heq =>
    simp [heq, TaskPc.terminal] at hterm
  case recvClosed.h_1 =>
    simp only [Inv] at hs
    simp_all
  all_goals subst h
  all_goals simp only [Inv] at hs
  all_goals cases hst : s.task <;> simp_all [TaskPc.terminal]

theorem exec_terminal (ctx : Context) (f : ConditionalCtx ε) (es : List Event) (s t : State ε)
    (hs : Inv ctx f s) (hterm : s.task.terminal = true)
    (h : exec (RunCtx ctx f) es s = some t) :
    t.task = s.task ∧ t.received = s.received := by
  have key := exec_induction (RunCtx ctx f)
    (fun u => Inv ctx f u ∧ u.task = s.task ∧ u.received = s.received)
    (fun e u v hu huv => by
      obtain ⟨hi, ht, hr⟩ := hu
      have := step_terminal ctx f e u v hi (by rw [ht]; exact hterm) huv
      exact ⟨inv_step ctx f e u v hi huv, by rw [this.1, ht], by rw [this.2, hr]⟩)
    es s t ⟨hs, rfl, rfl⟩ h
  exact key.2

/-- A cancelled context stays cancelled. -/
theorem step_doneClosed (ctx : Context) (f : ConditionalCtx ε) (e : Event) (s t : State ε)
    (hd : s.doneClosed = true) (h : (RunCtx ctx f).step e s = some t) :
    t.doneClosed = true := by
  cases e <;> simp only [RunCtx] at h <;> split at h <;> try (simp at h)
  case taskReturn.h_1 =>
    obtain ⟨a, _, rfl⟩ := h
    exact hd
  all_goals subst h
  all_goals simp_all

theorem exec_doneClosed (ctx : Context) (f : ConditionalCtx ε) (es : List Event) (s t : State ε)
    (hd : s.doneClosed = true) (h : exec (RunCtx ctx f) es s = some t) :
    t.doneClosed = true :=
  exec_induction (RunCtx ctx f) (fun u => u.doneClosed = true)
    (fun e u v hu huv => step_doneClosed ctx f e u v hu huv) es s t hd h

/-- Under a cancelled context, the outcome the goroutine holds is the one `f`
produces when it sees the context cancelled. -/
theorem step_outcome_cancelled (ctx : Context) (f : ConditionalCtx ε) (e : Event)
    (s t : State ε)
    (hs : s.doneClosed = true ∧ ∀ v : GoError ε,
      s.task = .racing v ∨ s.task = .delivered v → f ctx true = some v)
    (h : (RunCtx ctx f).step e s = some t) :
    t.doneClosed = true ∧ ∀ v : GoError ε,
      t.task = .racing v ∨ t.task = .delivered v → f ctx true = some v := by
  obtain ⟨hd, hv⟩ := hs
  cases e <;> simp only [RunCtx] at h <;> split at h <;> try (simp at h)
  case taskReturn.h_1 =>
    obtain ⟨a, ha, rfl⟩ := h
    rw [hd] at ha
    refine ⟨hd, ?_⟩
    intro v hv2
    simp at hv2
    rw [← hv2]
    exact ha
  case selectSend.h_1 =>
    rename_i v n hst _ _
    subst h
    refine ⟨hd, ?_⟩
    intro w hw
    simp at hw
    rw [← hw]
    exact hv v (Or.inl hst)
  all_goals subst h
  all_goals simp_all
  all_goals exact hv

/-- While the context is live and `f` returns `v`, every state satisfying the
invariant can still reach `delivered v`, with exactly `v` received, without a
cancellation: the caller returns, a reader starts receiving, `f` is called and
returns, and the `select` sends. -/
theorem live_can_deliver (ctx : Context) (f : ConditionalCtx ε) (s : State ε)
    (v : GoError ε) (hinv : Inv ctx f s) (hd : s.doneClosed = false)
    (hf : f ctx false = some v) :
    ∃ (es : List Event) (t : State ε), Event.cancel ∉ es ∧
      exec (RunCtx ctx f) es s = some t ∧ t.doneClosed = false ∧
      t.task = .delivered v ∧ t.received = [v] := by
  have hop := inv_open ctx f s hinv
  cases hst : s.task with
  | unspawned =>
    have hu : (s.caller = .atMake ∨ s.caller = .atGo) ∧ s.calls = [] ∧ s.received = [] := by
      simp only [Inv, hst] at hinv
      exact hinv.2.2.2
    have hw : s.waiting = 0 := hinv.2.2.1 (by rcases hu.1 with h | h <;> simp [h])
    rcases hu.1 with hm | hg
    · have hex : exec (RunCtx ctx f)
          [.callerMake, .callerGo, .callerReturn, .readerArrive, .taskCall, .taskReturn,
            .selectSend] s =
          some
            { s with
              caller := .returned, task := .delivered v, closed := false, waiting := 0,
              received := [v], calls := s.calls ++ [ctx] } := by
        simp [exec, RunCtx, hm, hd, hf]
      exact ⟨_, _, by simp, hex, hd, rfl, rfl⟩
    · have hex : exec (RunCtx ctx f)
          [.callerGo, .callerReturn, .readerArrive, .taskCall, .taskReturn, .selectSend] s =
          some
            { s with
              caller := .returned, task := .delivered v, waiting := 0,
              received := [v], calls := s.calls ++ [ctx] } := by
        simp [exec, RunCtx, hg, hd, hf, hop, hw, hu.2.2]
      exact ⟨_, _, by simp, hex, hd, rfl, rfl⟩
  | created =>
    have hu : (s.caller = .atReturn ∨ s.caller = .returned) ∧ s.calls = [] ∧
        s.received = [] := by
      simp only [Inv, hst] at hinv
      exact hinv.2.2.2
    rcases hu.1 with hr | hr
    · have hw : s.waiting = 0 := hinv.2.2.1 (by simp [hr])
      have hex : exec (RunCtx ctx f)
          [.callerReturn, .readerArrive, .taskCall, .taskReturn, .selectSend] s =
          some
            { s with
              caller := .returned, task := .delivered v, waiting := 0,
              received := [v], calls := s.calls ++ [ctx] } := by
        simp [exec, RunCtx, hr, hst, hd, hf, hop, hw, hu.2.2]
      exact ⟨_, _, by simp, hex, hd, rfl, rfl⟩
    · have hex : exec (RunCtx ctx f) [.readerArrive, .taskCall, .taskReturn, .selectSend] s =
          some
            { s with
              task := .delivered v, received := [v], calls := s.calls ++ [ctx] } := by
        simp [exec, RunCtx, hr, hst, hd, hf, hop, hu.2.2]
      exact ⟨_, _, by simp, hex, hd, rfl, rfl⟩
  | running =>
    have hu : (s.caller = .atReturn ∨ s.caller = .returned) ∧ s.calls = [ctx] ∧
        s.received = [] := by
      simp only [Inv, hst] at hinv
      exact hinv.2.2.2
    rcases hu.1 with hr | hr
    · have hw : s.waiting = 0 := hinv.2.2.1 (by simp [hr])
      have hex : exec (RunCtx ctx f) [.callerReturn, .readerArrive, .taskReturn, .selectSend] s =
          some
            { s with
              caller := .returned, task := .delivered v, waiting := 0, received := [v] } := by
        simp [exec, RunCtx, hr, hst, hd, hf, hop, hw, hu.2.2]
      exact ⟨_, _, by simp, hex, hd, rfl, rfl⟩
    · have hex : exec (RunCtx ctx f) [.readerArrive, .taskReturn, .selectSend] s =
          some { s with task := .delivered v, received := [v] } := by
        simp [exec, RunCtx, hr, hst, hd, hf, hop, hu.2.2]
      exact ⟨_, _, by simp, hex, hd, rfl, rfl⟩
  | racing w =>
    obtain ⟨_, hrec, b, hb, hfb⟩ := inv_racing ctx f s w hinv hst
    have hwv : w = v := by
      cases b with
      | false =>
        rw [hf] at hfb
        exact (Option.some.inj hfb).symm
      | true =>
        have := hb rfl
        rw [hd] at this
        exact Bool.noConfusion this
    subst hwv
    have hu : s.caller = .atReturn ∨ s.caller = .returned := by
      simp only [Inv, hst] at hinv
      exact hinv.2.2.2.1
    rcases hu with hr | hr
    · have hw : s.waiting = 0 := hinv.2.2.1 (by simp [hr])
      have hex : exec (RunCtx ctx f) [.callerReturn, .readerArrive, .selectSend] s =
          some
            { s with
              caller := .returned, task := .delivered w, waiting := 0, received := [w] } := by
        simp [exec, RunCtx, hr, hst, hop, hw, hrec]
      exact ⟨_, _, by simp, hex, hd, rfl, rfl⟩
    · have hex : exec (RunCtx ctx f) [.readerArrive, .selectSend] s =
          some { s with task := .delivered w, received := [w] } := by
        simp [exec, RunCtx, hr, hst, hop, hrec]
      exact ⟨_, _, by simp, hex, hd, rfl, rfl⟩
  | delivered w =>
    obtain ⟨_, hrec, b, hb, hfb⟩ := inv_delivered ctx f s w hinv hst
    have hwv : w = v := by
      cases b with
      | false =>
        rw [hf] at hfb
        exact (Option.some.inj hfb).symm
      | true =>
        have := hb rfl
        rw [hd] at this
        exact Bool.noConfusion this
    subst hwv
    exact ⟨[], s, by simp, rfl, hd, hst, hrec⟩
  | abandoned =>
    have := (inv_abandoned ctx f s hinv hst).2.2.1
    rw [hd] at this
    exact Bool.noConfusion this

/-! ## Run delivers what `f` returned -/

/-- C1: in every reachable state of an invocation of `Run f`, every value `x` that
a reader has received from the returned channel is the value `f` returned
(`f () = some x`): it is `nil` when `f` returned `nil` and the same error `e` when
`f` returned `e`, and it is the only value received. -/
theorem Run_received_is_result (f : Conditional ε) (pre : Bool) (s : State ε)
    (h : Reachable (Run f) pre s) (x : GoError ε) (hx : x ∈ s.received) :
    f () = some x ∧ s.received = [x] ∧
      (f () = some none → x = none) ∧ (∀ e : ε, f () = some (some e) → x = some e) := by
  have hinv := inv_reachable Context.background (fun _ _ => f ()) pre s h
  have key : f () = some x ∧ s.received = [x] := by
    simp only [Inv] at hinv
    cases hst : s.task <;> simp_all
  refine ⟨key.1, key.2, ?_, ?_⟩
  · intro h0
    have := key.1
    rw [h0] at this
    exact (Option.some.inj this).symm
  · intro e h0
    have := key.1
    rw [h0] at this
    exact (Option.some.inj this).symm

theorem Run_received_is_result_witness :
    Reachable (Run scenarioA) false scenarioA_final ∧
      some "a cannot be less than 1" ∈ scenarioA_final.received ∧
      (scenarioA () = some (some "a cannot be less than 1") ∧
        scenarioA_final.received = [some "a cannot be less than 1"] ∧
        (scenarioA () = some none → some "a cannot be less than 1" = none) ∧
        (∀ e : String, scenarioA () = some (some e) → some "a cannot be less than 1" = some e)) :=
  have hr : Reachable (Run scenarioA) false scenarioA_final := ⟨happyTrace, rfl⟩
  have hm : some "a cannot be less than 1" ∈ scenarioA_final.received := by
    simp [scenarioA_final]
  ⟨hr, hm, Run_received_is_result scenarioA false scenarioA_final hr _ hm⟩

/-! ## At most one send; terminal states are final -/

/-- C3: along every trace of an invocation of `RunCtx ctx f` (so also of `Run f`)
the `select` takes its send case at most once, the number of values received from
the returned channel equals the number of sends and is at most one, and once the
goroutine is in a terminal state (`delivered v` or `abandoned`) every state
reachable afterwards has the same program counter and the same received values:
`delivered` never becomes `abandoned`, `abandoned` never becomes `delivered`. -/
theorem RunCtx_at_most_one_send (ctx : Context) (f : ConditionalCtx ε) (pre : Bool)
    (es : List Event) (s : State ε)
    (h : exec (RunCtx ctx f) es ((RunCtx ctx f).start pre) = some s) :
    es.count Event.selectSend ≤ 1 ∧
      s.received.length = es.count Event.selectSend ∧
      (s.task.terminal = true → ∀ t : State ε, ReachableFrom (RunCtx ctx f) s t →
        t.task = s.task ∧ t.received = s.received) ∧
      (∀ v : GoError ε, s.task = .delivered v → ∀ t : State ε,
        ReachableFrom (RunCtx ctx f) s t → t.task ≠ .abandoned) ∧
      (s.task = .abandoned → ∀ t : State ε, ReachableFrom (RunCtx ctx f) s t →
        ∀ v : GoError ε, t.task ≠ .delivered v) := by
  have hinv : Inv ctx f s := inv_exec ctx f es _ s (inv_start ctx f pre) h
  have hlen := exec_received ctx f es _ s (inv_start ctx f pre) h
  have hstart : ((RunCtx ctx f).start pre).received.length = 0 := by simp [RunCtx]
  rw [hstart, Nat.zero_add] at hlen
  have hle : s.received.length ≤ 1 := inv_received_le ctx f s hinv
  refine ⟨by omega, hlen, ?_, ?_, ?_⟩
  · rintro hterm t ⟨es2, ht⟩
    exact exec_terminal ctx f es2 s t hinv hterm ht
  · rintro v hv t ⟨es2, ht⟩
    have := (exec_terminal ctx f es2 s t hinv (by simp [hv, TaskPc.terminal]) ht).1
    rw [this, hv]
    simp
  · rintro hv t ⟨es2, ht⟩ v
    have := (exec_terminal ctx f es2 s t hinv (by simp [hv, TaskPc.terminal]) ht).1
    rw [this, hv]
    simp

theorem RunCtx_at_most_one_send_witness :
    exec (RunCtx (Context.cancellable 0) returnCtxErr) happyTrace
        ((RunCtx (Context.cancellable 0) returnCtxErr).start false) = some liveDelivered ∧
      (happyTrace.count Event.selectSend ≤ 1 ∧
        liveDelivered.received.length = happyTrace.count Event.selectSend ∧
        (liveDelivered.task.terminal = true → ∀ t : State String,
          ReachableFrom (RunCtx (Context.cancellable 0) returnCtxErr) liveDelivered t →
          t.task = liveDelivered.task ∧ t.received = liveDelivered.received) ∧
        (∀ v : GoError String, liveDelivered.task = .delivered v → ∀ t : State String,
          ReachableFrom (RunCtx (Context.cancellable 0) returnCtxErr) liveDelivered t →
          t.task ≠ .abandoned) ∧
        (liveDelivered.task = .abandoned → ∀ t : State String,
          ReachableFrom (RunCtx (Context.cancellable 0) returnCtxErr) liveDelivered t →
          ∀ v : GoError String, t.task ≠ .delivered v)) :=
  ⟨rfl, RunCtx_at_most_one_send (Context.cancellable 0) returnCtxErr false happyTrace
    liveDelivered rfl⟩

/-! ## `f` is called once, with `ctx`, before the race -/

/-- C4: in every reachable state of an invocation of `RunCtx ctx f`, whether or not
the context was cancelled before the call (`pre`):
no call of `f` has been made while the goroutine has not entered its `select`,
and from then on exactly one call has been made, with argument `ctx`, and no
step makes another;
the `go` statement spawns the goroutine, the spawned goroutine enters the `select`
and calls `f` with `ctx`, and the return of `f` with `v` moves it to `racing v`,
each whatever the state of the context;
so from every reachable state the caller and the goroutine alone, by at most
three steps, reach a state in which `f` has been called exactly once, with `ctx`;
and a case of the `select` (done or send) can only be chosen in a state
`racing v`, in which the call of `f` has returned `v`, and choosing it makes no
further call. -/
theorem RunCtx_calls_f_once_before_race (ctx : Context) (f : ConditionalCtx ε) (pre : Bool)
    (s : State ε) (h : Reachable (RunCtx ctx f) pre s) :
    ((s.task = .unspawned ∨ s.task = .created) → s.calls = []) ∧
      ((s.task ≠ .unspawned ∧ s.task ≠ .created) → s.calls = [ctx]) ∧
      (∀ (e : Event) (t : State ε), (RunCtx ctx f).step e s = some t → s.calls = [ctx] →
        t.calls = [ctx]) ∧
      (s.caller = .atGo →
        (RunCtx ctx f).step .callerGo s = some { s with caller := .atReturn, task := .created }) ∧
      (s.task = .created →
        (RunCtx ctx f).step .taskCall s = some { s with task := .running, calls := [ctx] }) ∧
      (s.task = .running →
        (RunCtx ctx f).step .taskReturn s =
          (f ctx s.doneClosed).map (fun v => { s with task := .racing v })) ∧
      (∃ (es : List Event) (t : State ε), es.length ≤ 3 ∧
        (∀ e ∈ es, e.thread ≠ .environment) ∧
        exec (RunCtx ctx f) es s = some t ∧ t.calls = [ctx] ∧
        t.task ≠ .unspawned ∧ t.task ≠ .created) ∧
      (∀ (e : Event) (t : State ε), (e = .selectDone ∨ e = .selectSend) →
        (RunCtx ctx f).step e s = some t →
        ∃ (v : GoError ε) (b : Bool), s.task = .racing v ∧ f ctx b = some v ∧
          s.calls = [ctx] ∧ t.calls = [ctx]) := by
  have hinv := inv_reachable ctx f pre s h
  have h1 : (s.task = .unspawned ∨ s.task = .created) → s.calls = [] := by
    intro hs
    simp only [Inv] at hinv
    rcases hs with hs | hs <;> simp_all
  have h2 : (s.task ≠ .unspawned ∧ s.task ≠ .created) → s.calls = [ctx] := by
    rintro ⟨h1, h2⟩
    simp only [Inv] at hinv
    cases hst : s.task <;> simp_all
  have hcall : s.task = .created →
      (RunCtx ctx f).step .taskCall s = some { s with task := .running, calls := [ctx] } := by
    intro hs
    have hc := h1 (Or.inr hs)
    simp [RunCtx, hs, hc]
  refine ⟨h1, h2, ?_, ?_, hcall, ?_, ?_, ?_⟩
  · intro e t hstep hc
    cases e <;> simp only [RunCtx] at hstep <;> split at hstep <;> try (simp at hstep)
    case taskCall.h_1 =>
      rename_i hst
      have := h1 (Or.inr hst)
      rw [hc] at this
      simp at this
    case taskReturn.h_1 =>
      obtain ⟨a, _, rfl⟩ := hstep
      exact hc
    all_goals subst hstep
    all_goals exact hc
  · intro hc
    simp [RunCtx, hc]
  · intro hs
    simp [RunCtx, hs]
  · cases hst : s.task with
    | unspawned =>
      have hc := h1 (Or.inl hst)
      have hcaller : s.caller = .atMake ∨ s.caller = .atGo := by
        simp only [Inv, hst] at hinv
        exact hinv.2.2.2.1
      rcases hcaller with hm | hg
      · have hex : exec (RunCtx ctx f) [.callerMake, .callerGo, .taskCall] s =
            some
              { s with
                caller := .atReturn, task := .running, closed := false, waiting := 0,
                received := [], calls := [ctx] } := by
          simp [exec, RunCtx, hm, hc]
        exact ⟨_, _, by simp, by simp [Event.thread], hex, rfl, by simp, by simp⟩
      · have hex : exec (RunCtx ctx f) [.callerGo, .taskCall] s =
            some { s with caller := .atReturn, task := .running, calls := [ctx] } := by
          simp [exec, RunCtx, hg, hc]
        exact ⟨_, _, by simp, by simp [Event.thread], hex, rfl, by simp, by simp⟩
    | created =>
      have hex : exec (RunCtx ctx f) [.taskCall] s =
          some { s with task := .running, calls := [ctx] } := by
        simp [exec, hcall hst]
      exact ⟨_, _, by simp, by simp [Event.thread], hex, rfl, by simp, by simp⟩
    | running =>
      exact ⟨[], s, by simp, by simp, rfl, h2 (by simp [hst]), by simp [hst], by simp [hst]⟩
    | racing v =>
      exact ⟨[], s, by simp, by simp, rfl, h2 (by simp [hst]), by simp [hst], by simp [hst]⟩
    | delivered v =>
      exact ⟨[], s, by simp, by simp, rfl, h2 (by simp [hst]), by simp [hst], by simp [hst]⟩
    | abandoned =>
      exact ⟨[], s, by simp, by simp, rfl, h2 (by simp [hst]), by simp [hst], by simp [hst]⟩
  · intro e t he hstep
    rcases he with rfl | rfl
    · simp only [RunCtx] at hstep
      split at hstep <;> try (simp at hstep)
      rename_i v _ hst _ _
      subst hstep
      obtain ⟨hc, _, b, _, hb⟩ := inv_racing ctx f s v hinv hst
      exact ⟨v, b, hst, hb, hc, hc⟩
    · simp only [RunCtx] at hstep
      split at hstep <;> try (simp at hstep)
      rename_i v _ hst _ _
      subst hstep
      obtain ⟨hc, _, b, _, hb⟩ := inv_racing ctx f s v hinv hst
      exact ⟨v, b, hst, hb, hc, hc⟩

theorem RunCtx_calls_f_once_before_race_witness :
    (Reachable (RunCtx (Context.cancellable 0) returnCtxErr) false liveAtGo ∧
        liveAtGo.caller = .atGo ∧
        (RunCtx (Context.cancellable 0) returnCtxErr).step .callerGo liveAtGo =
          some { liveAtGo with caller := .atReturn, task := .created } ∧
        liveAtGo.calls = []) ∧
      (Reachable (RunCtx (Context.cancellable 0) returnCtxErr) false liveCreated ∧
        liveCreated.task = .created ∧
        (RunCtx (Context.cancellable 0) returnCtxErr).step .taskCall liveCreated =
          some { liveCreated with task := .running, calls := [Context.cancellable 0] }) ∧
      (Reachable (RunCtx (Context.cancellable 0) returnCtxErr) true preCancelledCreated ∧
        preCancelledCreated.task = .created ∧
        (RunCtx (Context.cancellable 0) returnCtxErr).step .taskCall preCancelledCreated =
          some { preCancelledCreated with
            task := .running, calls := [Context.cancellable 0] }) ∧
      (Reachable (RunCtx (Context.cancellable 0) returnCtxErr) true preCancelledRunning ∧
        preCancelledRunning.task = .running ∧
        preCancelledRunning.calls = [Context.cancellable 0] ∧
        (RunCtx (Context.cancellable 0) returnCtxErr).step .taskReturn preCancelledRunning =
          (returnCtxErr (Context.cancellable 0) preCancelledRunning.doneClosed).map
            (fun v => { preCancelledRunning with task := .racing v })) ∧
      (Reachable (RunCtx (Context.cancellable 0) returnCtxErr) true preCancelledAbandoned ∧
        preCancelledAbandoned.task = .abandoned ∧
        preCancelledAbandoned.calls = [Context.cancellable 0]) :=
  have r1 : Reachable (RunCtx (Context.cancellable 0) returnCtxErr) false liveAtGo :=
    ⟨[.callerMake], rfl⟩
  have r2 : Reachable (RunCtx (Context.cancellable 0) returnCtxErr) false liveCreated :=
    ⟨[.callerMake, .callerGo], rfl⟩
  have r3 : Reachable (RunCtx (Context.cancellable 0) returnCtxErr) true preCancelledCreated :=
    ⟨[.callerMake, .callerGo], rfl⟩
  have r4 : Reachable (RunCtx (Context.cancellable 0) returnCtxErr) true preCancelledRunning :=
    ⟨[.callerMake, .callerGo, .taskCall], rfl⟩
  have r5 : Reachable (RunCtx (Context.cancellable 0) returnCtxErr) true
      preCancelledAbandoned :=
    ⟨[.callerMake, .callerGo, .taskCall, .taskReturn, .selectDone], rfl⟩
  have t1 := RunCtx_calls_f_once_before_race (Context.cancellable 0) returnCtxErr false
    liveAtGo r1
  have t2 := RunCtx_calls_f_once_before_race (Context.cancellable 0) returnCtxErr false
    liveCreated r2
  have t3 := RunCtx_calls_f_once_before_race (Context.cancellable 0) returnCtxErr true
    preCancelledCreated r3
  have t4 := RunCtx_calls_f_once_before_race (Context.cancellable 0) returnCtxErr true
    preCancelledRunning r4
  have t5 := RunCtx_calls_f_once_before_race (Context.cancellable 0) returnCtxErr true
    preCancelledAbandoned r5
  ⟨⟨r1, rfl, t1.2.2.2.1 rfl, t1.1 (Or.inl rfl)⟩,
    ⟨r2, rfl, t2.2.2.2.2.1 rfl⟩,
    ⟨r3, rfl, t3.2.2.2.2.1 rfl⟩,
    ⟨r4, rfl, t4.2.1 ⟨by simp [preCancelledRunning], by simp [preCancelledRunning]⟩,
      t4.2.2.2.2.2.1 rfl⟩,
    ⟨r5, rfl, t5.2.1 ⟨by simp [preCancelledAbandoned], by simp [preCancelledAbandoned]⟩⟩⟩

/-! ## A context cancelled before the call -/

/-- C2, as stated, fails: with a context cancelled before the call and a reader
already waiting when the goroutine reaches its `select`, the `select` may choose
the send, and the reader receives the value `f` returned. -/
theorem preCancelled_can_deliver :
    (exec (RunCtx (Context.cancellable 0) returnCtxErr) preCancelledDelivery
        ((RunCtx (Context.cancellable 0) returnCtxErr).start true)).map (fun s => s.received) =
      some [some "context canceled"] := by
  rfl

/-- C2, amended: for a context that is cancelled before the call, in every reachable
state the context is still cancelled; whenever `f` has returned (`racing v`) the
done case of the `select` can be chosen and ends the goroutine `abandoned`; the
send case can be chosen only if a reader is waiting at that moment, and when one
is, the send case can be chosen and hands that reader `v`, the outcome `f`
produced under the cancelled context; and once the goroutine is `abandoned`,
nothing has been received and nothing is received in any later state. -/
theorem RunCtx_preCancelled (id : Nat) (f : ConditionalCtx ε) (s : State ε)
    (h : Reachable (RunCtx (Context.cancellable id) f) true s) :
    s.doneClosed = true ∧
      (∀ v : GoError ε, s.task = .racing v →
        (RunCtx (Context.cancellable id) f).step .selectDone s =
          some { s with task := .abandoned }) ∧
      (s.waiting = 0 → (RunCtx (Context.cancellable id) f).step .selectSend s = none) ∧
      (∀ (v : GoError ε) (n : Nat), s.task = .racing v → s.waiting = n + 1 →
        f (Context.cancellable id) true = some v ∧
        (RunCtx (Context.cancellable id) f).step .selectSend s =
          some { s with task := .delivered v, waiting := n, received := [v] }) ∧
      (∀ t : State ε, (RunCtx (Context.cancellable id) f).step .selectSend s = some t →
        ∃ v : GoError ε, s.task = .racing v ∧ 0 < s.waiting ∧
          f (Context.cancellable id) true = some v ∧
          t.task = .delivered v ∧ t.received = [v]) ∧
      (s.task = .abandoned → ∀ t : State ε,
        ReachableFrom (RunCtx (Context.cancellable id) f) s t →
        t.task = .abandoned ∧ t.received = []) := by
  have hinv := inv_reachable (Context.cancellable id) f true s h
  have hpre : s.doneClosed = true ∧ ∀ v : GoError ε,
      s.task = .racing v ∨ s.task = .delivered v → f (Context.cancellable id) true = some v := by
    obtain ⟨es, hes⟩ := h
    exact exec_induction (RunCtx (Context.cancellable id) f)
      (fun u => u.doneClosed = true ∧ ∀ v : GoError ε,
        u.task = .racing v ∨ u.task = .delivered v → f (Context.cancellable id) true = some v)
      (fun e u w hu huw => step_outcome_cancelled (Context.cancellable id) f e u w hu huw)
      es _ s ⟨by simp [RunCtx, Context.Done], by simp [RunCtx]⟩ hes
  have hd := hpre.1
  have hsend : ∀ (v : GoError ε) (n : Nat), s.task = .racing v → s.waiting = n + 1 →
      (RunCtx (Context.cancellable id) f).step .selectSend s =
        some { s with task := .delivered v, waiting := n, received := [v] } := by
    intro v n hv hn
    have hr := (inv_racing _ f s v hinv hv).2.1
    have hop := inv_open _ f s hinv
    simp [RunCtx, hv, hn, hop, hr]
  refine ⟨hd, ?_, ?_, ?_, ?_, ?_⟩
  · intro v hv
    simp [RunCtx, hv, hd, Context.Done]
  · intro hw
    simp only [RunCtx]
    split <;> simp_all
  · intro v n hv hn
    exact ⟨hpre.2 v (Or.inl hv), hsend v n hv hn⟩
  · intro t ht
    have ht0 := ht
    simp only [RunCtx] at ht
    split at ht <;> try (simp at ht)
    rename_i v n hv hn _
    have hs := hsend v n hv hn
    rw [ht0] at hs
    have ht2 : t = { s with task := .delivered v, waiting := n, received := [v] } :=
      Option.some.inj hs
    refine ⟨v, hv, by omega, hpre.2 v (Or.inl hv), ?_, ?_⟩
    · rw [ht2]
    · rw [ht2]
  · rintro ha t ⟨es, ht⟩
    have := exec_terminal (Context.cancellable id) f es s t hinv (by simp [ha, TaskPc.terminal]) ht
    rw [this.1, this.2]
    exact ⟨ha, (inv_abandoned (Context.cancellable id) f s hinv ha).2.1⟩

theorem RunCtx_preCancelled_witness :
    (Reachable (RunCtx (Context.cancellable 0) returnCtxErr) true preCancelledWaiting ∧
        preCancelledWaiting.task = .racing (some "context canceled") ∧
        preCancelledWaiting.waiting = 0 + 1 ∧
        (RunCtx (Context.cancellable 0) returnCtxErr).step .selectDone preCancelledWaiting =
          some { preCancelledWaiting with task := .abandoned } ∧
        returnCtxErr (Context.cancellable 0) true = some (some "context canceled") ∧
        (RunCtx (Context.cancellable 0) returnCtxErr).step .selectSend preCancelledWaiting =
          some { preCancelledWaiting with
            task := .delivered (some "context canceled"), waiting := 0,
            received := [some "context canceled"] }) ∧
      (Reachable (RunCtx (Context.cancellable 0) returnCtxErr) true preCancelledRacing ∧
        preCancelledRacing.waiting = 0 ∧
        (RunCtx (Context.cancellable 0) returnCtxErr).step .selectSend preCancelledRacing =
          none) ∧
      (Reachable (RunCtx (Context.cancellable 0) returnCtxErr) true preCancelledAbandoned ∧
        preCancelledAbandoned.task = .abandoned ∧
        ∀ t : State String,
          ReachableFrom (RunCtx (Context.cancellable 0) returnCtxErr) preCancelledAbandoned t →
          t.task = .abandoned ∧ t.received = []) :=
  have h1 : Reachable (RunCtx (Context.cancellable 0) returnCtxErr) true preCancelledWaiting :=
    ⟨[.callerMake, .callerGo, .callerReturn, .readerArrive, .taskCall, .taskReturn], rfl⟩
  have h2 : Reachable (RunCtx (Context.cancellable 0) returnCtxErr) true preCancelledRacing :=
    ⟨[.callerMake, .callerGo, .callerReturn, .taskCall, .taskReturn], rfl⟩
  have h3 : Reachable (RunCtx (Context.cancellable 0) returnCtxErr) true preCancelledAbandoned :=
    ⟨[.callerMake, .callerGo, .taskCall, .taskReturn, .selectDone], rfl⟩
  have t1 := RunCtx_preCancelled 0 returnCtxErr preCancelledWaiting h1
  have t2 := RunCtx_preCancelled 0 returnCtxErr preCancelledRacing h2
  have t3 := RunCtx_preCancelled 0 returnCtxErr preCancelledAbandoned h3
  ⟨⟨h1, rfl, rfl, t1.2.1 _ rfl, (t1.2.2.2.1 _ 0 rfl rfl).1, (t1.2.2.2.1 _ 0 rfl rfl).2⟩,
    ⟨h2, rfl, t2.2.2.1 rfl⟩, ⟨h3, rfl, t3.2.2.2.2.2 rfl⟩⟩

/-! ## Cancellation after `f` has returned -/

/-- C5, as stated, fails: `f` returns, the context is cancelled while no reader is
waiting, a reader arrives afterwards, and the `select`, which has not chosen yet,
may still choose the send: the late reader receives the value. -/
theorem lateCancel_can_deliver :
    (exec (RunCtx (Context.cancellable 0) returnCtxErr) lateCancelDelivery
        ((RunCtx (Context.cancellable 0) returnCtxErr).start false)).map
        (fun s => (s.task, s.received)) =
      some (TaskPc.delivered none, [none]) := by
  rfl

/-- C5, amended: if `f` has produced its outcome (`racing v`), the context is
cancelled and no reader is waiting when the `select` makes its choice, then the
send case cannot be chosen, the done case can, and it ends the invocation
`abandoned`: the outcome is discarded, and in every later state the goroutine is
still `abandoned` and no reader has received a value. -/
theorem RunCtx_cancel_without_reader (ctx : Context) (f : ConditionalCtx ε) (pre : Bool)
    (s : State ε) (v : GoError ε) (h : Reachable (RunCtx ctx f) pre s)
    (hv : s.task = .racing v) (hd : s.doneClosed = true) (hw : s.waiting = 0) :
    (RunCtx ctx f).step .selectSend s = none ∧
      ∃ t : State ε, (RunCtx ctx f).step .selectDone s = some t ∧
        t.task = .abandoned ∧ t.received = [] ∧
        ∀ u : State ε, ReachableFrom (RunCtx ctx f) t u →
          u.task = .abandoned ∧ u.received = [] := by
  have hinv := inv_reachable ctx f pre s h
  have hsome : ctx.Done.isSome = true := hinv.2.1 hd
  obtain ⟨c, hc⟩ := Option.isSome_iff_exists.mp hsome
  have hstep : (RunCtx ctx f).step .selectDone s = some { s with task := .abandoned } := by
    simp [RunCtx, hv, hd, hc]
  have hrec : s.received = [] := (inv_racing ctx f s v hinv hv).2.1
  refine ⟨?_, { s with task := .abandoned }, hstep, rfl, hrec, ?_⟩
  · simp only [RunCtx]
    split <;> simp_all
  · rintro u ⟨es, hu⟩
    have hinv2 := inv_step ctx f .selectDone s _ hinv hstep
    have := exec_terminal ctx f es _ u hinv2 (by simp [TaskPc.terminal]) hu
    rw [this.1, this.2]
    exact ⟨rfl, hrec⟩

theorem RunCtx_cancel_without_reader_witness :
    Reachable (RunCtx (Context.cancellable 0) returnCtxErr) false lateCancelRacing ∧
      lateCancelRacing.task = .racing none ∧ lateCancelRacing.doneClosed = true ∧
      lateCancelRacing.waiting = 0 ∧
      ((RunCtx (Context.cancellable 0) returnCtxErr).step .selectSend lateCancelRacing = none ∧
        ∃ t : State String,
          (RunCtx (Context.cancellable 0) returnCtxErr).step .selectDone lateCancelRacing =
            some t ∧
          t.task = .abandoned ∧ t.received = [] ∧
          ∀ u : State String, ReachableFrom (RunCtx (Context.cancellable 0) returnCtxErr) t u →
            u.task = .abandoned ∧ u.received = []) :=
  ⟨⟨[.callerMake, .callerGo, .callerReturn, .taskCall, .taskReturn, .cancel], rfl⟩, rfl, rfl, rfl,
    RunCtx_cancel_without_reader (Context.cancellable 0) returnCtxErr false lateCancelRacing none
      ⟨[.callerMake, .callerGo, .callerReturn, .taskCall, .taskReturn, .cancel], rfl⟩ rfl rfl rfl⟩

/-! ## The race is not determined -/

/-- C9: for a cancellable context and a unit of work that returns `v`, there is a
reachable state in which `f` has produced `v`, the context is cancelled and a
reader is waiting, and from which one step of the `select` ends `delivered v`
with the reader holding `v`, and another ends `abandoned` with nothing received. -/
theorem RunCtx_race_undetermined (id : Nat) (f : ConditionalCtx ε) (pre : Bool)
    (v : GoError ε) (hf : f (Context.cancellable id) pre = some v) :
    ∃ s : State ε, Reachable (RunCtx (Context.cancellable id) f) pre s ∧
      s.task = .racing v ∧ s.doneClosed = true ∧ 0 < s.waiting ∧
      (∃ t : State ε, (RunCtx (Context.cancellable id) f).step .selectSend s = some t ∧
        t.task = .delivered v ∧ t.received = [v]) ∧
      (∃ t : State ε, (RunCtx (Context.cancellable id) f).step .selectDone s = some t ∧
        t.task = .abandoned ∧ t.received = []) := by
  let s : State ε :=
    { caller := .returned, task := .racing v, doneClosed := true, closed := false, waiting := 1,
      received := [], calls := [Context.cancellable id] }
  refine ⟨s, ?_, rfl, rfl, ?_, ?_, ?_⟩
  · refine ⟨[.callerMake, .callerGo, .callerReturn, .readerArrive, .taskCall, .taskReturn,
      .cancel], ?_⟩
    simp [exec, RunCtx, Context.Done, hf]
  · simp
  · exact ⟨_, rfl, rfl, rfl⟩
  · exact ⟨_, rfl, rfl, rfl⟩

theorem RunCtx_race_undetermined_witness :
    returnCtxErr (Context.cancellable 0) false = some none ∧
      ∃ s : State String, Reachable (RunCtx (Context.cancellable 0) returnCtxErr) false s ∧
        s.task = .racing none ∧ s.doneClosed = true ∧ 0 < s.waiting ∧
        (∃ t : State String,
          (RunCtx (Context.cancellable 0) returnCtxErr).step .selectSend s = some t ∧
          t.task = .delivered none ∧ t.received = [none]) ∧
        (∃ t : State String,
          (RunCtx (Context.cancellable 0) returnCtxErr).step .selectDone s = some t ∧
          t.task = .abandoned ∧ t.received = []) :=
  ⟨rfl, RunCtx_race_undetermined 0 returnCtxErr false none rfl⟩

/-! ## Run is RunCtx with the background context -/

/-- C6: `Run f`, as the source defines it, is the system the spec describes,
`RunCtx` with a token that never fires and the wrapper that ignores its token
(`LaunchSpec f`); every trace of `Run f` is a trace of `LaunchSpec f` to the same
state, hence with the same calls of `f` and the same values received; and the
token indeed never fires: in every state of the trace the done channel is not
closed, the context cannot be cancelled, the done case of the `select` cannot be
chosen, and every call of the wrapper returned what `f ()` returns. -/
theorem Run_is_RunCtx_background (f : Conditional ε) (pre : Bool) (es : List Event)
    (s : State ε) (h : exec (Run f) es ((Run f).start pre) = some s) :
    Run f = LaunchSpec f ∧
      exec (LaunchSpec f) es ((LaunchSpec f).start pre) = some s ∧
      s.doneClosed = false ∧
      (Run f).step .cancel s = none ∧
      (Run f).step .selectDone s = none ∧
      s.task ≠ .abandoned ∧
      (∀ c ∈ s.calls, c = neverFiringToken) ∧
      (∀ (c : Context) (b : Bool), ignoringToken f c b = f ()) := by
  have hinv : Inv Context.background (fun _ _ => f ()) s :=
    inv_reachable Context.background (fun _ _ => f ()) pre s ⟨es, h⟩
  have hd : s.doneClosed = false := by
    cases hdc : s.doneClosed
    · rfl
    · have := hinv.2.1 hdc
      simp [Context.Done] at this
  refine ⟨rfl, h, hd, rfl, ?_, ?_, ?_, fun _ _ => rfl⟩
  · simp only [Run, RunCtx, Context.Done]
    split <;> simp_all
  · intro ha
    have := (inv_abandoned _ _ s hinv ha).2.2.1
    rw [hd] at this
    exact Bool.noConfusion this
  · intro c hc
    simp only [Inv] at hinv
    cases hst : s.task <;> simp_all [neverFiringToken]

theorem Run_is_RunCtx_background_witness :
    exec (Run scenarioA) happyTrace ((Run scenarioA).start true) = some scenarioA_final ∧
      (Run scenarioA = LaunchSpec scenarioA ∧
        exec (LaunchSpec scenarioA) happyTrace ((LaunchSpec scenarioA).start true) =
          some scenarioA_final ∧
        scenarioA_final.doneClosed = false ∧
        (Run scenarioA).step .cancel scenarioA_final = none ∧
        (Run scenarioA).step .selectDone scenarioA_final = none ∧
        scenarioA_final.task ≠ .abandoned ∧
        (∀ c ∈ scenarioA_final.calls, c = neverFiringToken) ∧
        (∀ (c : Context) (b : Bool), ignoringToken scenarioA c b = scenarioA ())) :=
  ⟨rfl, Run_is_RunCtx_background scenarioA true happyTrace scenarioA_final rfl⟩

/-! ## The returned channel is never closed -/

/-- C7: in every reachable state of an invocation of `RunCtx ctx f` the returned
channel is open and no receive can complete on a closed channel; and once the
goroutine is `abandoned`, in every later state the channel is still open and
empty (nothing received) and neither way of completing a receive, a send by the
goroutine or the close of the channel, is enabled: a receive never completes. -/
theorem RunCtx_never_closes (ctx : Context) (f : ConditionalCtx ε) (pre : Bool)
    (s : State ε) (h : Reachable (RunCtx ctx f) pre s) :
    s.closed = false ∧
      (RunCtx ctx f).step .recvClosed s = none ∧
      (s.task = .abandoned → ∀ t : State ε, ReachableFrom (RunCtx ctx f) s t →
        t.closed = false ∧ t.received = [] ∧
        (RunCtx ctx f).step .selectSend t = none ∧
        (RunCtx ctx f).step .recvClosed t = none) := by
  have hinv := inv_reachable ctx f pre s h
  have hrc : ∀ u : State ε, Inv ctx f u → (RunCtx ctx f).step .recvClosed u = none := by
    intro u hu
    have := inv_open ctx f u hu
    simp only [RunCtx]
    split <;> simp_all
  refine ⟨inv_open ctx f s hinv, hrc s hinv, ?_⟩
  rintro ha t ⟨es, ht⟩
  have hinvt := inv_exec ctx f es s t hinv ht
  have hterm := exec_terminal ctx f es s t hinv (by simp [ha, TaskPc.terminal]) ht
  refine ⟨inv_open ctx f t hinvt, ?_, ?_, hrc t hinvt⟩
  · rw [hterm.2]
    exact (inv_abandoned ctx f s hinv ha).2.1
  · have hta : t.task = .abandoned := by rw [hterm.1, ha]
    simp only [RunCtx]
    split <;> simp_all

theorem RunCtx_never_closes_witness :
    Reachable (RunCtx (Context.cancellable 0) returnCtxErr) true preCancelledAbandoned ∧
      (preCancelledAbandoned.closed = false ∧
        (RunCtx (Context.cancellable 0) returnCtxErr).step .recvClosed preCancelledAbandoned =
          none ∧
        (preCancelledAbandoned.task = .abandoned → ∀ t : State String,
          ReachableFrom (RunCtx (Context.cancellable 0) returnCtxErr) preCancelledAbandoned t →
          t.closed = false ∧ t.received = [] ∧
          (RunCtx (Context.cancellable 0) returnCtxErr).step .selectSend t = none ∧
          (RunCtx (Context.cancellable 0) returnCtxErr).step .recvClosed t = none)) :=
  ⟨⟨[.callerMake, .callerGo, .taskCall, .taskReturn, .selectDone], rfl⟩,
    RunCtx_never_closes (Context.cancellable 0) returnCtxErr true preCancelledAbandoned
      ⟨[.callerMake, .callerGo, .taskCall, .taskReturn, .selectDone], rfl⟩⟩

/-! ## The call returns without waiting -/

/-- C8: for every context and every unit of work `f`, one that never returns
included, in every reachable state of an invocation of `RunCtx ctx f` (so also of
`Run f`), whatever the goroutine is doing:
each statement of the calling thread is enabled when the caller is at it and
moves the caller on (`make` to the `go` statement, `go` to `return ret` with
the goroutine spawned, `return ret` to returned);
so while the call has not returned, at most three steps of the calling thread
alone take it to its return, without a call of `f` and without a step of the
goroutine;
the steps of the calling thread are the same for every other unit of work `g`;
a step of the calling thread never calls `f` and moves the goroutine only by
spawning it; only the goroutine's step `taskCall` calls `f`;
and from the start of the invocation the three steps of the calling thread
alone reach the return, the goroutine spawned and `f` not called. -/
theorem RunCtx_returns_without_waiting (ctx : Context) (f : ConditionalCtx ε) (pre : Bool)
    (s : State ε) (h : Reachable (RunCtx ctx f) pre s) :
    (s.caller = .atMake → (RunCtx ctx f).step .callerMake s =
        some { s with caller := .atGo, closed := false, waiting := 0, received := [] }) ∧
      (s.caller = .atGo → (RunCtx ctx f).step .callerGo s =
        some { s with caller := .atReturn, task := .created }) ∧
      (s.caller = .atReturn → (RunCtx ctx f).step .callerReturn s =
        some { s with caller := .returned }) ∧
      (∃ (es : List Event) (t : State ε), es.length ≤ 3 ∧
        (∀ e ∈ es, e.thread = .caller) ∧ exec (RunCtx ctx f) es s = some t ∧
        t.caller = .returned ∧ t.calls = s.calls ∧ t.received = s.received ∧
        (t.task = s.task ∨ (s.task = .unspawned ∧ t.task = .created))) ∧
      (s.caller ≠ .returned → ∃ (e : Event) (t : State ε),
        e.thread = .caller ∧ (RunCtx ctx f).step e s = some t) ∧
      (∀ (g : ConditionalCtx ε) (e : Event), e.thread = .caller →
        (RunCtx ctx g).step e s = (RunCtx ctx f).step e s) ∧
      (∀ (e : Event) (t : State ε), e.thread = .caller → (RunCtx ctx f).step e s = some t →
        t.calls = s.calls ∧ (t.task = s.task ∨ (s.task = .unspawned ∧ t.task = .created))) ∧
      (∀ (e : Event) (t : State ε), (RunCtx ctx f).step e s = some t → t.calls ≠ s.calls →
        e = .taskCall ∧ e.thread = .task) ∧
      (∃ t : State ε, exec (RunCtx ctx f) callerSteps ((RunCtx ctx f).start pre) = some t ∧
        t.caller = .returned ∧ t.task = .created ∧ t.calls = []) := by
  have hinv := inv_reachable ctx f pre s h
  have hmake : s.caller = .atMake → (RunCtx ctx f).step .callerMake s =
      some { s with caller := .atGo, closed := false, waiting := 0, received := [] } := by
    intro hcs
    simp [RunCtx, hcs]
  have hgo : s.caller = .atGo → (RunCtx ctx f).step .callerGo s =
      some { s with caller := .atReturn, task := .created } := by
    intro hcs
    simp [RunCtx, hcs]
  have hret : s.caller = .atReturn → (RunCtx ctx f).step .callerReturn s =
      some { s with caller := .returned } := by
    intro hcs
    simp [RunCtx, hcs]
  refine ⟨hmake, hgo, hret, ?_, ?_, ?_, ?_, ?_, ?_⟩
  · cases hcs : s.caller with
    | atMake =>
      have hex : exec (RunCtx ctx f) [.callerMake, .callerGo, .callerReturn] s =
          some
            { s with
              caller := .returned, task := .created, closed := false, waiting := 0,
              received := [] } := by
        simp [exec, RunCtx, hcs]
      have hu : s.task = .unspawned ∧ s.received = [] := by
        simp only [Inv] at hinv
        cases hst : s.task <;> simp_all
      exact ⟨_, _, by simp, by simp [Event.thread], hex, rfl, rfl, hu.2.symm,
        Or.inr ⟨hu.1, rfl⟩⟩
    | atGo =>
      have hex : exec (RunCtx ctx f) [.callerGo, .callerReturn] s =
          some { s with caller := .returned, task := .created } := by
        simp [exec, RunCtx, hcs]
      have hu : s.task = .unspawned := by
        simp only [Inv] at hinv
        cases hst : s.task <;> simp_all
      exact ⟨_, _, by simp, by simp [Event.thread], hex, rfl, rfl, rfl, Or.inr ⟨hu, rfl⟩⟩
    | atReturn =>
      have hex : exec (RunCtx ctx f) [.callerReturn] s =
          some { s with caller := .returned } := by
        simp [exec, RunCtx, hcs]
      exact ⟨_, _, by simp, by simp [Event.thread], hex, rfl, rfl, rfl, Or.inl rfl⟩
    | returned =>
      exact ⟨[], s, by simp, by simp, rfl, hcs, rfl, rfl, Or.inl rfl⟩
  · intro hc
    cases hcs : s.caller with
    | atMake => exact ⟨.callerMake, _, rfl, hmake hcs⟩
    | atGo => exact ⟨.callerGo, _, rfl, hgo hcs⟩
    | atReturn => exact ⟨.callerReturn, _, rfl, hret hcs⟩
    | returned => exact absurd hcs hc
  · intro g e he
    cases e <;> simp [Event.thread] at he <;> rfl
  · intro e t he hstep
    cases e <;> simp [Event.thread] at he <;> simp only [RunCtx] at hstep <;>
      split at hstep <;> try (simp at hstep)
    · subst hstep
      simp
    · subst hstep
      simp only [Inv] at hinv
      cases hst : s.task <;> simp_all
    · subst hstep
      simp
  · intro e t hstep hne
    cases e <;> simp only [RunCtx] at hstep <;> split at hstep <;> try (simp at hstep)
    case taskCall.h_1 => exact ⟨rfl, rfl⟩
    case taskReturn.h_1 =>
      obtain ⟨a, _, rfl⟩ := hstep
      exact absurd rfl hne
    all_goals subst hstep
    all_goals exact absurd rfl hne
  · exact ⟨_, rfl, rfl, rfl, rfl⟩

theorem RunCtx_returns_without_waiting_witness :
    (Reachable (RunCtx (Context.cancellable 0) neverReturns) false stuckInF ∧
        stuckInF.caller = .atReturn ∧
        (RunCtx (Context.cancellable 0) neverReturns).step .callerReturn stuckInF =
          some { stuckInF with caller := .returned } ∧
        (∃ (es : List Event) (t : State String), es.length ≤ 3 ∧
          (∀ e ∈ es, e.thread = .caller) ∧
          exec (RunCtx (Context.cancellable 0) neverReturns) es stuckInF = some t ∧
          t.caller = .returned ∧ t.calls = stuckInF.calls ∧ t.received = stuckInF.received ∧
          (t.task = stuckInF.task ∨ (stuckInF.task = .unspawned ∧ t.task = .created))) ∧
        (∀ (g : ConditionalCtx String) (e : Event), e.thread = .caller →
          (RunCtx (Context.cancellable 0) g).step e stuckInF =
            (RunCtx (Context.cancellable 0) neverReturns).step e stuckInF)) ∧
      (Reachable (RunCtx (Context.cancellable 0) neverReturns) false liveAtGo ∧
        liveAtGo.caller = .atGo ∧
        (RunCtx (Context.cancellable 0) neverReturns).step .callerGo liveAtGo =
          some { liveAtGo with caller := .atReturn, task := .created }) ∧
      (∃ t : State String,
        exec (RunCtx (Context.cancellable 0) neverReturns) callerSteps
          ((RunCtx (Context.cancellable 0) neverReturns).start false) = some t ∧
        t.caller = .returned ∧ t.task = .created ∧ t.calls = []) :=
  have r1 : Reachable (RunCtx (Context.cancellable 0) neverReturns) false stuckInF :=
    ⟨[.callerMake, .callerGo, .taskCall], rfl⟩
  have r2 : Reachable (RunCtx (Context.cancellable 0) neverReturns) false liveAtGo :=
    ⟨[.callerMake], rfl⟩
  have t1 := RunCtx_returns_without_waiting (Context.cancellable 0) neverReturns false
    stuckInF r1
  have t2 := RunCtx_returns_without_waiting (Context.cancellable 0) neverReturns false
    liveAtGo r2
  ⟨⟨r1, rfl, t1.2.2.1 rfl, t1.2.2.2.1, t1.2.2.2.2.2.1⟩, ⟨r2, rfl, t2.2.1 rfl⟩,
    t1.2.2.2.2.2.2.2.2⟩

/-! ## A token that never fires -/

/-- C10: along every trace of an invocation of `RunCtx ctx f` at whose end the
context is not cancelled (so it never was; this is every trace of `Run f`):
the goroutine is in a terminal state exactly when the `select` has taken its
send, that is when a reader has received; a terminal state is then `delivered v`
with `v`, the outcome of `f`, received, never `abandoned`;
when the call of `f` returns `v` the goroutine takes `v` into the `select`
(`racing v`); there it is blocked as long as no reader is waiting (none of its
steps is enabled) and hands `v` to a reader as soon as one is;
and for an `f` that returns `v`, from the end of the trace the invocation can
still reach, without a cancellation, the state `delivered v` with exactly `v`
received. -/
theorem RunCtx_live_token (ctx : Context) (f : ConditionalCtx ε) (pre : Bool)
    (es : List Event) (s : State ε)
    (h : exec (RunCtx ctx f) es ((RunCtx ctx f).start pre) = some s)
    (hd : s.doneClosed = false) :
    (s.task.terminal = true ↔ Event.selectSend ∈ es) ∧
      s.task ≠ .abandoned ∧
      (s.task.terminal = true → ∃ v : GoError ε, s.task = .delivered v ∧ s.received = [v] ∧
        f ctx false = some v) ∧
      (∀ v : GoError ε, s.task = .running → f ctx false = some v →
        (RunCtx ctx f).step .taskReturn s = some { s with task := .racing v }) ∧
      (∀ v : GoError ε, s.task = .racing v → f ctx false = some v) ∧
      (∀ v : GoError ε, s.task = .racing v → s.waiting = 0 →
        ∀ e : Event, e.thread = .task → (RunCtx ctx f).step e s = none) ∧
      (∀ (v : GoError ε) (n : Nat), s.task = .racing v → s.waiting = n + 1 →
        (RunCtx ctx f).step .selectSend s =
          some { s with task := .delivered v, waiting := n, received := [v] }) ∧
      (∀ v : GoError ε, f ctx false = some v →
        ∃ (es2 : List Event) (t : State ε), Event.cancel ∉ es2 ∧
          exec (RunCtx ctx f) es2 s = some t ∧ t.doneClosed = false ∧
          t.task = .delivered v ∧ t.received = [v]) := by
  have hinv : Inv ctx f s := inv_exec ctx f es _ s (inv_start ctx f pre) h
  have hlen := exec_received ctx f es _ s (inv_start ctx f pre) h
  have hstart : ((RunCtx ctx f).start pre).received.length = 0 := by simp [RunCtx]
  rw [hstart, Nat.zero_add] at hlen
  have hop := inv_open ctx f s hinv
  have hna : s.task ≠ .abandoned := by
    intro ha
    have := (inv_abandoned ctx f s hinv ha).2.2.1
    rw [hd] at this
    exact Bool.noConfusion this
  have hrac : ∀ v : GoError ε, s.task = .racing v → f ctx false = some v := by
    intro v hv
    obtain ⟨_, _, b, hb, hfb⟩ := inv_racing ctx f s v hinv hv
    cases b with
    | false => exact hfb
    | true =>
      have := hb rfl
      rw [hd] at this
      exact Bool.noConfusion this
  have hdel : s.task.terminal = true → ∃ v : GoError ε, s.task = .delivered v ∧
      s.received = [v] ∧ f ctx false = some v := by
    intro hterm
    cases hst : s.task with
    | delivered v =>
      obtain ⟨_, hr, b, hb, hfb⟩ := inv_delivered ctx f s v hinv hst
      cases b with
      | false => exact ⟨v, rfl, hr, hfb⟩
      | true =>
        have := hb rfl
        rw [hd] at this
        exact Bool.noConfusion this
    | abandoned => exact absurd hst hna
    | unspawned => simp [hst, TaskPc.terminal] at hterm
    | created => simp [hst, TaskPc.terminal] at hterm
    | running => simp [hst, TaskPc.terminal] at hterm
    | racing v => simp [hst, TaskPc.terminal] at hterm
  have hsend : ∀ (v : GoError ε) (n : Nat), s.task = .racing v → s.waiting = n + 1 →
      (RunCtx ctx f).step .selectSend s =
        some { s with task := .delivered v, waiting := n, received := [v] } := by
    intro v n hv hn
    have hr := (inv_racing ctx f s v hinv hv).2.1
    simp [RunCtx, hv, hn, hop, hr]
  refine ⟨⟨?_, ?_⟩, hna, hdel, ?_, hrac, ?_, hsend, ?_⟩
  · intro hterm
    obtain ⟨v, _, hr, _⟩ := hdel hterm
    rw [hr] at hlen
    apply List.count_pos_iff.mp
    simp only [List.length_singleton] at hlen
    omega
  · intro hmem
    have hpos := List.count_pos_iff.mpr hmem
    have hne : s.received ≠ [] := by
      intro h0
      rw [h0] at hlen
      simp only [List.length_nil] at hlen
      omega
    simp only [Inv] at hinv
    cases hst : s.task <;> simp_all [TaskPc.terminal]
  · intro v hv hf
    simp [RunCtx, hv, hd, hf]
  · intro v hv hw e he
    cases e <;> simp [Event.thread] at he <;> simp only [RunCtx] <;> split <;> simp_all
  · intro v hf
    have hcases := live_can_deliver ctx f s v hinv hd hf
    exact hcases

theorem RunCtx_live_token_witness :
    (exec (RunCtx (Context.cancellable 0) returnCtxErr)
          [.callerMake, .callerGo, .callerReturn, .taskCall]
          ((RunCtx (Context.cancellable 0) returnCtxErr).start false) = some liveRunning ∧
        liveRunning.doneClosed = false ∧ liveRunning.task = .running ∧
        returnCtxErr (Context.cancellable 0) false = some none ∧
        (RunCtx (Context.cancellable 0) returnCtxErr).step .taskReturn liveRunning =
          some { liveRunning with task := .racing none } ∧
        (∃ (es2 : List Event) (t : State String), Event.cancel ∉ es2 ∧
          exec (RunCtx (Context.cancellable 0) returnCtxErr) es2 liveRunning = some t ∧
          t.doneClosed = false ∧ t.task = .delivered none ∧ t.received = [none])) ∧
      (exec (RunCtx (Context.cancellable 0) returnCtxErr)
          [.callerMake, .callerGo, .callerReturn, .taskCall, .taskReturn]
          ((RunCtx (Context.cancellable 0) returnCtxErr).start false) = some liveRacingAlone ∧
        liveRacingAlone.doneClosed = false ∧ liveRacingAlone.task = .racing none ∧
        liveRacingAlone.waiting = 0 ∧
        (liveRacingAlone.task.terminal = true ↔
          Event.selectSend ∈
            [Event.callerMake, .callerGo, .callerReturn, .taskCall, .taskReturn]) ∧
        (∀ e : Event, e.thread = .task →
          (RunCtx (Context.cancellable 0) returnCtxErr).step e liveRacingAlone = none)) ∧
      (exec (RunCtx (Context.cancellable 0) returnCtxErr)
          [.callerMake, .callerGo, .callerReturn, .taskCall, .taskReturn, .readerArrive]
          ((RunCtx (Context.cancellable 0) returnCtxErr).start false) = some liveRacingReader ∧
        liveRacingReader.doneClosed = false ∧ liveRacingReader.task = .racing none ∧
        liveRacingReader.waiting = 0 + 1 ∧
        (RunCtx (Context.cancellable 0) returnCtxErr).step .selectSend liveRacingReader =
          some { liveRacingReader with
            task := .delivered none, waiting := 0, received := [none] }) ∧
      (exec (Run scenarioA) happyTrace ((Run scenarioA).start false) = some scenarioA_final ∧
        scenarioA_final.doneClosed = false ∧
        (scenarioA_final.task.terminal = true ↔ Event.selectSend ∈ happyTrace) ∧
        scenarioA_final.task ≠ .abandoned) :=
  have t1 := RunCtx_live_token (Context.cancellable 0) returnCtxErr false
    [.callerMake, .callerGo, .callerReturn, .taskCall] liveRunning rfl rfl
  have t2 := RunCtx_live_token (Context.cancellable 0) returnCtxErr false
    [.callerMake, .callerGo, .callerReturn, .taskCall, .taskReturn] liveRacingAlone rfl rfl
  have t3 := RunCtx_live_token (Context.cancellable 0) returnCtxErr false
    [.callerMake, .callerGo, .callerReturn, .taskCall, .taskReturn, .readerArrive]
    liveRacingReader rfl rfl
  have t4 := RunCtx_live_token Context.background (fun _ _ => scenarioA ()) false happyTrace
    scenarioA_final rfl rfl
  ⟨⟨rfl, rfl, rfl, rfl, t1.2.2.2.1 none rfl rfl, t1.2.2.2.2.2.2.2 none rfl⟩,
    ⟨rfl, rfl, rfl, rfl, t2.1, t2.2.2.2.2.2.1 none rfl rfl⟩,
    ⟨rfl, rfl, rfl, rfl, t3.2.2.2.2.2.2.1 none 0 rfl rfl⟩,
    ⟨rfl, rfl, t4.1, t4.2.1⟩⟩

end Gocond
